import Mathlib

/-!
Verification development for the Lumbergh backend (tmux session supervisor).

Shallow embedding of the state-inference engine (`idle_detector.py`,
`idle_monitor.py`), the PTY session pool (`session_manager.py`,
`tmux_pty.py`), the git diff facade (`git_utils.py`), the diff cache and
its HTTP endpoints (`diff_cache.py`, `routers/sessions.py`) and the
path-escape defense (`file_utils.py`).

Modelling conventions:
- wall-clock time is `Nat` milliseconds;
- terminal text is `List Char`; Python regexes over literal alternations
  are embedded as explicit substring/scan functions (`re.search`
  semantics); Python `\w`/`\s` are embedded as their ASCII classes;
- filesystem and stores are association lists; side effects (file opens,
  git computations, OS close/kill calls) are returned as explicit traces.
-/

namespace Lumbergh

/-- Association-list lookup (first match wins), mirroring a Python dict read. -/
def assocGet {α : Type} [DecidableEq α] {β : Type} : List (α × β) → α → Option β
  | [], _ => none
  | (k, v) :: rest, key => if k = key then some v else assocGet rest key

/-- Association-list write, mirroring a Python dict assignment. -/
def assocSet {α : Type} [DecidableEq α] {β : Type} : List (α × β) → α → β → List (α × β)
  | [], key, val => [(key, val)]
  | (k, v) :: rest, key, val =>
    if k = key then (key, val) :: rest else (k, v) :: assocSet rest key val

/-- Association-list delete, mirroring Python `del d[k]` / `d.pop(k, None)`. -/
def assocRemove {α : Type} [DecidableEq α] {β : Type} : List (α × β) → α → List (α × β)
  | [], _ => []
  | (k, v) :: rest, key =>
    if k = key then rest else (k, v) :: assocRemove rest key

/-- Substring containment: `re.search` of a literal pattern in a line. -/
def containsSub (hay pat : List Char) : Bool :=
  hay.tails.any fun t => pat.isPrefixOf t

/-- Case-insensitive substring containment (`re.IGNORECASE` literal search). -/
def containsSubCI (hay pat : List Char) : Bool :=
  containsSub (hay.map Char.toLower) (pat.map Char.toLower)

/-- ASCII embedding of the Python regex class `\s` (` \t\n\r\f\v`). -/
def isSpaceChar (c : Char) : Bool :=
  c = ' ' || c = '\t' || c = '\n' || c = '\r' || c = '\x0b' || c = '\x0c'

/-- ASCII embedding of the Python regex class `\w` (`[A-Za-z0-9_]`). -/
def isWordChar (c : Char) : Bool :=
  c.isAlphanum || c = '_'

/-! ## idle_detector.py: SessionState and pattern tables -/

/-- `SessionState` enum from `idle_detector.py`. -/
inductive SessionState where
  | unknown
  | idle
  | working
  | error
  | stalled
  deriving DecidableEq, Repr

/-- `IdleDetector.SPINNER_CHARS`. -/
def spinnerChars : List Char := "⠋⠙⠹⠸⠼⠴⠦⠧⠇⠏".toList

/-- Membership of a spinner glyph in a line (`any(char in line ...)`). -/
def hasSpinnerChar (line : List Char) : Bool :=
  line.any fun c => spinnerChars.contains c

/-- ERROR_PATTERNS: each regex is a case-insensitive literal alternation;
`search` over the five compiled patterns equals this disjunction. -/
def errorPatternMatch (line : List Char) : Bool :=
  containsSubCI line "rate limit".toList || containsSubCI line "rate_limit".toList ||
  containsSubCI line "429".toList || containsSubCI line "too many requests".toList ||
  containsSubCI line "overloaded".toList ||
  containsSubCI line "APIError".toList || containsSubCI line "API error".toList ||
  containsSubCI line "APIConnectionError".toList ||
  containsSubCI line "unexpected error".toList || containsSubCI line "Connection error".toList

/-- Tail of the regex `\d+s` after its first (already checked) digit:
either an `s` ends the match or a further digit continues it. -/
def digitsThenS : List Char → Bool
  | [] => false
  | c :: rest => c = 's' || (c.isDigit && digitsThenS rest)

/-- `re.search(r"thought for \d+s", line)`. -/
def thoughtForMatch (line : List Char) : Bool :=
  line.tails.any fun t =>
    "thought for ".toList.isPrefixOf t &&
      (match t.drop 12 with
       | [] => false
       | c :: rest => c.isDigit && digitsThenS rest)

/-- WORKING_PATTERNS from `idle_detector.py`:
`Thinking|Channelling` (CI), the spinner-glyph regex, `Running…|Executing`,
`thought for \d+s`, `esc to interrupt` (CI). -/
def workingPatternMatch (line : List Char) : Bool :=
  containsSubCI line "Thinking".toList || containsSubCI line "Channelling".toList ||
  hasSpinnerChar line ||
  containsSub line "Running…".toList || containsSub line "Executing".toList ||
  thoughtForMatch line ||
  containsSubCI line "esc to interrupt".toList

/-- `re.search(r"Yes.*No", line)` (lines hold no newline, so DOTALL is moot). -/
def yesNoMatch (line : List Char) : Bool :=
  line.tails.any fun t =>
    "Yes".toList.isPrefixOf t && containsSub (t.drop 3) "No".toList

/-- IDLE_PATTERNS from `idle_detector.py`. -/
def idlePatternMatch (line : List Char) : Bool :=
  containsSub line "❯".toList ||
  containsSub line "Do you want to proceed?".toList ||
  containsSub line "Esc to cancel".toList ||
  containsSub line "? for shortcuts".toList ||
  yesNoMatch line

/-- `re.search(r"[\$%#]\s*$", line)`: some `$`/`%`/`#` is followed only by
whitespace to the end of the line. -/
def shellPat1 (line : List Char) : Bool :=
  line.tails.any fun t =>
    match t with
    | [] => false
    | c :: rest => (c = '$' || c = '%' || c = '#') && rest.all isSpaceChar

/-- `re.search(r"@.*[\$%#]\s*$", line)`. -/
def shellPat2 (line : List Char) : Bool :=
  line.tails.any fun t =>
    match t with
    | [] => false
    | c :: rest => c = '@' && shellPat1 rest

/-- `re.search(r"^\s*\w+@[\w.-]+[:\s]", line)` (anchored at line start). -/
def shellPat3 (line : List Char) : Bool :=
  let t := line.dropWhile isSpaceChar
  let w := t.takeWhile isWordChar
  let r := t.dropWhile isWordChar
  !w.isEmpty &&
    (match r with
     | '@' :: r2 =>
       let hostChar := fun c => isWordChar c || c = '.' || c = '-'
       let h := r2.takeWhile hostChar
       let r3 := r2.dropWhile hostChar
       !h.isEmpty &&
         (match r3 with
          | c :: _ => c = ':' || isSpaceChar c
          | [] => false)
     | _ => false)

/-- SHELL_PROMPT_PATTERNS: any of the three compiled patterns matches. -/
def shellPromptMatch (line : List Char) : Bool :=
  shellPat1 line || shellPat2 line || shellPat3 line

/-! ## idle_detector.py: ANSI stripping and the line buffer -/

/-- One alternative of the `_strip_ansi` regex, tried at the text just after
an ESC byte: CSI `\x1b[[0-9;]*[a-zA-Z]`, OSC `\x1b][^\x07]*\x07`, or DCS-like
`\x1b[PX^_][^\x1b]*\x1b\\`. Returns the remainder after the match, or `none`. -/
def matchAnsiTail : List Char → Option (List Char)
  | '[' :: rest =>
    (match rest.dropWhile (fun c => c.isDigit || c = ';') with
     | c :: r2 => if c.isAlpha then some r2 else none
     | [] => none)
  | ']' :: rest =>
    (match rest.dropWhile (fun c => !(c = '\x07')) with
     | _ :: r2 => some r2
     | [] => none)
  | c :: rest =>
    if c = 'P' || c = 'X' || c = '^' || c = '_' then
      match rest.dropWhile (fun d => !(d = '\x1b')) with
      | _ :: '\\' :: r2 => some r2
      | _ => none
    else none
  | [] => none

/-- Left-to-right scan of `re.sub` with the `_strip_ansi` pattern; the fuel
argument (instantiated with the input length) bounds the recursion and is
never exhausted since every step consumes at least one character. -/
def stripAnsiAux : Nat → List Char → List Char
  | 0, l => l
  | _, [] => []
  | fuel + 1, c :: rest =>
    if c = '\x1b' then
      match matchAnsiTail rest with
      | some r2 => stripAnsiAux fuel r2
      | none => c :: stripAnsiAux fuel rest
    else c :: stripAnsiAux fuel rest

/-- `IdleDetector._strip_ansi`. -/
def stripAnsi (line : List Char) : List Char :=
  stripAnsiAux line.length line

/-- Python `str.split("\n")`. -/
def splitLines : List Char → List (List Char)
  | [] => [[]]
  | c :: rest =>
    if c = '\n' then [] :: splitLines rest
    else
      match splitLines rest with
      | [] => [[c]]
      | l :: ls => (c :: l) :: ls

/-- `deque(maxlen=50).append`: keep at most the 50 most recent lines. -/
def bufferAppend (buf : List (List Char)) (line : List Char) : List (List Char) :=
  let b := buf ++ [line]
  b.drop (b.length - 50)

/-- The buffer-filling loop shared by `process_output` and
`analyze_initial_content`: strip ANSI from each split line and append it
only when non-empty. -/
def addLines (buf : List (List Char)) (lines : List (List Char)) : List (List Char) :=
  lines.foldl
    (fun b line =>
      let clean := stripAnsi line
      if clean.isEmpty then b else bufferAppend b clean)
    buf

/-! ## idle_detector.py: _analyze_state -/

/-- The `has_working_or_idle` loop of `_analyze_state`, translated with its
break structure: per line, spinner membership, then WORKING_PATTERNS, then
IDLE_PATTERNS, stopping at the first hit. -/
def hasWorkOrIdleLoop : List (List Char) → Bool
  | [] => false
  | line :: rest =>
    if hasSpinnerChar line then true
    else if workingPatternMatch line then true
    else if idlePatternMatch line then true
    else hasWorkOrIdleLoop rest

/-- A first-match scan over lines with a given matcher (the shape of the
`for line in recent_lines: for pattern in ...: if pattern.search(line)`
loops in `_analyze_state`). -/
def anyLineMatch (f : List Char → Bool) : List (List Char) → Bool
  | [] => false
  | line :: rest => if f line then true else anyLineMatch f rest

/-- `IdleDetector._analyze_state`, translated clause by clause (confidence
and reason strings are dropped; only the returned state is modelled). -/
def analyzeState (buf : List (List Char)) : SessionState :=
  if buf.isEmpty then SessionState.unknown
  else
    let recent := buf.drop (buf.length - 10)
    let lastLine := recent.getLastD []
    if anyLineMatch errorPatternMatch recent then SessionState.error
    else if !hasWorkOrIdleLoop recent && shellPromptMatch lastLine then SessionState.error
    else if hasSpinnerChar lastLine then SessionState.working
    else if anyLineMatch workingPatternMatch recent then SessionState.working
    else if anyLineMatch idlePatternMatch recent then SessionState.idle
    else SessionState.unknown

/-- The state analysis as the specification words it: a priority cascade over
the last-10-line window — error anywhere, else shell prompt on the very last
line when no working/idle indicator is anywhere in the window, else spinner
in the last line, else a working match, else an idle match, else unknown. -/
def specAnalyzeState (buf : List (List Char)) : SessionState :=
  if buf.isEmpty then SessionState.unknown
  else
    let recent := buf.drop (buf.length - 10)
    let lastLine := recent.getLastD []
    let workOrIdleSignal :=
      recent.any fun l => hasSpinnerChar l || workingPatternMatch l || idlePatternMatch l
    if recent.any errorPatternMatch then SessionState.error
    else if !workOrIdleSignal && shellPromptMatch lastLine then SessionState.error
    else if hasSpinnerChar lastLine then SessionState.working
    else if recent.any workingPatternMatch then SessionState.working
    else if recent.any idlePatternMatch then SessionState.idle
    else SessionState.unknown

/-! ## idle_detector.py: hysteresis (process_output) -/

/-- `STATE_CHANGE_DELAY_MS`. -/
def stateChangeDelayMs : Nat := 500

/-- Mutable state of an `IdleDetector` (times in milliseconds). -/
structure DetectorState where
  buffer : List (List Char)
  current : SessionState
  pending : Option SessionState
  pendingTime : Nat
  deriving DecidableEq, Repr

/-- `IdleDetector.__init__`. -/
def initDetector : DetectorState :=
  { buffer := [], current := SessionState.unknown, pending := none, pendingTime := 0 }

/-- `IdleDetector.process_output`: fill the buffer, analyze, apply the
hysteresis, and return the new detector state together with the reported
(committed) state. `now` is the wall clock in milliseconds; the Python
`(now - pending_time) * 1000 >= 500` test over seconds becomes
`now - pendingTime >= 500` over milliseconds. -/
def processOutput (s : DetectorState) (data : List Char) (now : Nat) :
    DetectorState × SessionState :=
  let buf := addLines s.buffer (splitLines data)
  let detected := analyzeState buf
  if detected ≠ s.current then
    if s.pending ≠ some detected then
      ({ s with buffer := buf, pending := some detected, pendingTime := now }, s.current)
    else if now - s.pendingTime ≥ stateChangeDelayMs then
      ({ s with buffer := buf, current := detected, pending := none }, detected)
    else
      ({ s with buffer := buf }, s.current)
  else
    ({ s with buffer := buf, pending := none }, s.current)

/-- `IdleDetector.analyze_initial_content`: fill the buffer and commit the
detected state immediately, bypassing hysteresis. -/
def analyzeInitialContent (s : DetectorState) (content : List Char) :
    DetectorState × SessionState :=
  let buf := addLines s.buffer (splitLines content)
  let detected := analyzeState buf
  ({ s with buffer := buf, current := detected }, detected)

/-- Run `process_output` over a timed sequence of output chunks, returning
the final detector state and the last reported state. -/
def runDetector (s : DetectorState) : List (List Char × Nat) → DetectorState × SessionState
  | [] => (s, s.current)
  | (data, now) :: rest =>
    let (s2, st) := processOutput s data now
    match rest with
    | [] => (s2, st)
    | _ => runDetector s2 rest

/-! ## idle_monitor.py: stall overlay of the snapshot path -/

/-- `IdleMonitor.STALL_THRESHOLD_SECONDS`, in milliseconds. -/
def stallThresholdMs : Nat := 600000

/-- The stall overlay of `IdleMonitor._check_session`: given the session's
`_working_since` entry (if any), the snapshot-analyzed state and the clock,
return the updated `_working_since` entry and the state the monitor reports.
The code overrides WORKING to STALLED only when strictly more than the
threshold has elapsed, and drops the entry on any non-WORKING analysis. -/
def monitorStallStep (workingSince : Option Nat) (detected : SessionState) (now : Nat) :
    Option Nat × SessionState :=
  if detected = SessionState.working then
    match workingSince with
    | none => (some now, detected)
    | some t0 =>
      if now - t0 > stallThresholdMs then (some t0, SessionState.stalled)
      else (some t0, detected)
  else (none, detected)

/-! ## git_utils.py: diff parsing and the untracked pseudo-diff -/

/-- `DiffStats` dataclass. -/
structure DiffStats where
  additions : Nat
  deletions : Nat
  deriving DecidableEq, Repr

/-- `FileDiff` dataclass. -/
structure FileDiff where
  path : String
  diff : String
  deriving DecidableEq, Repr

/-- Python `str.split(sep)` for a non-empty separator, over character
lists: scan left to right, breaking at each non-overlapping occurrence of
the separator. The fuel (instantiated with the input length) bounds the
recursion; every step consumes at least one character, so it is never
exhausted. -/
def splitOnGo (sep : List Char) : Nat → List Char → List Char → List (List Char)
  | _, [], acc => [acc.reverse]
  | 0, l, acc => [acc.reverse ++ l]
  | fuel + 1, c :: rest, acc =>
    if sep.isPrefixOf (c :: rest) then
      acc.reverse :: splitOnGo sep fuel ((c :: rest).drop sep.length) []
    else
      splitOnGo sep fuel rest (c :: acc)

/-- `s.split(sep)` on strings (`sep` non-empty in every use below). -/
def strSplitOn (s sep : String) : List String :=
  if sep.isEmpty then [s]
  else (splitOnGo sep.toList s.toList.length s.toList []).map String.mk

/-- Python truthiness of the `current_file` variable in `parse_diff_output`
(`None` and the empty string are both falsy). -/
def optTruthy : Option String → Bool
  | some s => !s.isEmpty
  | none => false

/-- Loop state of `parse_diff_output`. -/
structure ParseAcc where
  files : List FileDiff
  stats : DiffStats
  curFile : Option String
  curLines : List String
  deriving DecidableEq, Repr

/-- One iteration of the `for line in diff_text.split("\n")` loop of
`parse_diff_output`. -/
def parseDiffStep (acc : ParseAcc) (line : String) : ParseAcc :=
  if line.startsWith "diff --git" then
    let files :=
      if optTruthy acc.curFile then
        acc.files ++ [⟨acc.curFile.getD "", String.intercalate "\n" acc.curLines⟩]
      else acc.files
    let parts := strSplitOn line " b/"
    let cur := if parts.length > 1 then parts.getLastD "unknown" else "unknown"
    { files := files, stats := acc.stats, curFile := some cur, curLines := [line] }
  else if optTruthy acc.curFile then
    let adds :=
      if line.startsWith "+" && !line.startsWith "+++" then acc.stats.additions + 1
      else acc.stats.additions
    let dels :=
      if line.startsWith "-" && !line.startsWith "---" then acc.stats.deletions + 1
      else acc.stats.deletions
    { acc with stats := ⟨adds, dels⟩, curLines := acc.curLines ++ [line] }
  else acc

/-- `parse_diff_output`. -/
def parseDiffOutput (diffText : String) : List FileDiff × DiffStats :=
  let acc := (strSplitOn diffText "\n").foldl parseDiffStep ⟨[], ⟨0, 0⟩, none, []⟩
  let files :=
    if optTruthy acc.curFile then
      acc.files ++ [⟨acc.curFile.getD "", String.intercalate "\n" acc.curLines⟩]
    else acc.files
  (files, acc.stats)

/-- `workdir / path` for the flat string paths used by the git facade. -/
def joinPath (dir p : String) : String := dir ++ "/" ++ p

/-- `generate_untracked_file_diff`: the filesystem is an association list
from full path to content; a missing key models a path that is not a
readable regular file. -/
def generateUntrackedFileDiff (fsFiles : List (String × String)) (workdir p : String) :
    Option FileDiff × DiffStats :=
  match assocGet fsFiles (joinPath workdir p) with
  | none => (none, ⟨0, 0⟩)
  | some content =>
    let lines := strSplitOn content "\n"
    let header := ["diff --git a/" ++ p ++ " b/" ++ p,
                   "new file mode 100644",
                   "--- /dev/null",
                   "+++ b/" ++ p,
                   "@@ -0,0 +1," ++ toString lines.length ++ " @@"]
    let plusLines := lines.map fun l => "+" ++ l
    (some ⟨p, String.intercalate "\n" (header ++ plusLines)⟩, ⟨lines.length, 0⟩)

/-- One entry of the dict list built by `get_full_diff_with_untracked`. -/
structure DiffEntry where
  path : String
  diff : String
  oldContent : Option String
  newContent : Option String
  deriving DecidableEq, Repr

/-- The `{files, stats}` result dict of `get_full_diff_with_untracked`. -/
structure DiffSnapshot where
  files : List DiffEntry
  stats : DiffStats
  deriving DecidableEq, Repr

/-- The parts of a git repository observed by `get_full_diff_with_untracked`:
validity of HEAD, the text `repo.git.diff("HEAD")` would print, per-path
content at HEAD (`git show HEAD:path`, absent on error), the untracked list,
and the on-disk file contents keyed by full path. -/
structure RepoState where
  workdir : String
  headValid : Bool
  headDiffText : String
  headContents : List (String × String)
  untrackedFiles : List String
  fsFiles : List (String × String)
  deriving DecidableEq, Repr

/-- `get_full_diff_with_untracked`. -/
def getFullDiffWithUntracked (repo : RepoState) : DiffSnapshot :=
  let tracked :=
    if repo.headValid && !repo.headDiffText.isEmpty then
      let parsed := parseDiffOutput repo.headDiffText
      (parsed.1.map fun f =>
        { path := f.path, diff := f.diff,
          oldContent := assocGet repo.headContents f.path,
          newContent := assocGet repo.fsFiles (joinPath repo.workdir f.path) },
       parsed.2)
    else (([] : List DiffEntry), (⟨0, 0⟩ : DiffStats))
  let untracked :=
    repo.untrackedFiles.foldl
      (fun (acc : List DiffEntry × Nat) p =>
        match generateUntrackedFileDiff repo.fsFiles repo.workdir p with
        | (some fd, stats) =>
          (acc.1 ++ [{ path := fd.path, diff := fd.diff, oldContent := none,
                       newContent := assocGet repo.fsFiles (joinPath repo.workdir p) }],
           acc.2 + stats.additions)
        | (none, _) => acc)
      ([], 0)
  { files := tracked.1 ++ untracked.1,
    stats := ⟨tracked.2.additions + untracked.2, tracked.2.deletions⟩ }

/-! ## diff_cache.py and the git diff endpoints of routers/sessions.py -/

/-- The mutable maps of `DiffCache` (`_cache` and `_last_interest`;
interest timestamps in milliseconds of monotonic time). -/
structure DiffCacheState where
  cache : List (String × DiffSnapshot)
  lastInterest : List (String × Nat)
  deriving DecidableEq, Repr

/-- `DiffCache.mark_active`. -/
def markActive (s : DiffCacheState) (name : String) (now : Nat) : DiffCacheState :=
  { s with lastInterest := assocSet s.lastInterest name now }

/-- `DiffCache.get_diff`. -/
def cacheGetDiff (s : DiffCacheState) (name : String) : Option DiffSnapshot :=
  assocGet s.cache name

/-- The response shape of the diff-stats endpoint. -/
structure GitStatsResponse where
  files : Nat
  additions : Nat
  deletions : Nat
  deriving DecidableEq, Repr

/-- `DiffCache.get_stats`. -/
def cacheGetStats (s : DiffCacheState) (name : String) : Option GitStatsResponse :=
  (assocGet s.cache name).map fun d =>
    ⟨d.files.length, d.stats.additions, d.stats.deletions⟩

/-- Observable git work performed while serving a request. -/
inductive GitEffect where
  | computeFullDiff (name : String)
  deriving DecidableEq, Repr

/-- Result of the full-diff endpoint. -/
inductive DiffResponse where
  | snapshot (d : DiffSnapshot)
  | notFound
  deriving DecidableEq, Repr

/-- `session_git_diff` (`GET /api/sessions/{name}/git/diff`): mark interest,
serve from cache, else resolve the workdir (`none` models the 404 raise of
`get_session_workdir`) and compute inline on a cache miss. -/
def sessionGitDiffEndpoint (s : DiffCacheState) (name : String) (now : Nat)
    (workdirRepo : Option RepoState) : DiffCacheState × DiffResponse × List GitEffect :=
  let s1 := markActive s name now
  match cacheGetDiff s1 name with
  | some cached => (s1, DiffResponse.snapshot cached, [])
  | none =>
    match workdirRepo with
    | none => (s1, DiffResponse.notFound, [])
    | some repo =>
      (s1, DiffResponse.snapshot (getFullDiffWithUntracked repo),
       [GitEffect.computeFullDiff name])

/-- `session_git_diff_stats` (`GET /api/sessions/{name}/git/diff-stats`):
serve stats from cache, defaulting to all-zero on a miss; never marks
interest and never touches git. -/
def sessionGitDiffStatsEndpoint (s : DiffCacheState) (name : String) :
    DiffCacheState × GitStatsResponse × List GitEffect :=
  match cacheGetStats s name with
  | some st => (s, st, [])
  | none => (s, ⟨0, 0, 0⟩, [])

/-- The cached snapshot of a genuinely clean working tree. -/
def cleanDiffSnapshot : DiffSnapshot := ⟨[], ⟨0, 0⟩⟩

/-! ## file_utils.py and the session file endpoint -/

/-- Lexical embedding of `Path.resolve()` on absolute paths given as
component lists (symbolic links are outside the model): drop `.` and empty
components, let `..` remove the previous component. -/
def resolvePath (comps : List String) : List String :=
  comps.foldl
    (fun acc c =>
      if c = "" || c = "." then acc
      else if c = ".." then acc.dropLast
      else acc ++ [c])
    []

/-- `validate_path_within_root`:
`path.resolve().is_relative_to(root.resolve())`. -/
def validatePathWithinRoot (path root : List String) : Bool :=
  (resolvePath root).isPrefixOf (resolvePath path)

/-- `EXT_TO_LANGUAGE` from constants.py. -/
def extToLanguage : List (String × String) :=
  [(".py", "python"), (".js", "javascript"), (".ts", "typescript"),
   (".tsx", "tsx"), (".jsx", "jsx"), (".json", "json"), (".md", "markdown"),
   (".sh", "bash"), (".css", "css"), (".html", "html"), (".yaml", "yaml"),
   (".yml", "yaml"), (".toml", "toml")]

/-- `Path.suffix` on a file name (no directory separators): the part from
the last dot, provided that dot is neither the first nor the last character. -/
def fileSuffix (name : String) : String :=
  let cs := name.toList
  match ((List.range cs.length).filter fun i => cs.getD i ' ' = '.').getLast? with
  | some i => if 0 < i ∧ i < cs.length - 1 then String.mk (cs.drop i) else ""
  | none => ""

/-- `get_file_language` (the suffix is lower-cased before lookup). -/
def getFileLanguage (name : String) : String :=
  (assocGet extToLanguage (fileSuffix name).toLower).getD "text"

/-- Response of `session_get_file`. -/
inductive FileResponse where
  | ok (content language path : String)
  | httpError (status : Nat) (detail : String)
  deriving DecidableEq, Repr

/-- `session_get_file` (`GET /api/sessions/{name}/files/{path}`): the
filesystem is given as regular files (resolved path → content) and a
directory set; the second component lists the resolved paths the handler
opened for reading. -/
def sessionGetFileEndpoint (files : List (List String × String))
    (dirs : List (List String)) (workdir relPath : List String) :
    FileResponse × List (List String) :=
  let fullPath := workdir ++ relPath
  if !validatePathWithinRoot fullPath workdir then
    (FileResponse.httpError 403 "Access denied", [])
  else
    let rp := resolvePath fullPath
    match assocGet files rp with
    | some content =>
      (FileResponse.ok content (getFileLanguage (relPath.getLastD ""))
        (String.intercalate "/" relPath), [rp])
    | none =>
      if dirs.contains rp then (FileResponse.httpError 400 "Path is not a file", [])
      else (FileResponse.httpError 404 "File not found", [])

/-! ## session_manager.py: registration and the client-set life cycle -/

/-- The environment `register_client` can observe: live tmux sessions, the
declared session store (name → workdir), directories existing on disk, and
per-session pane content. -/
structure TmuxWorld where
  sessions : List String
  declared : List (String × String)
  dirs : List String
  paneContent : List (String × String)
  deriving DecidableEq, Repr

/-- Outcome of `register_client` as seen by the WebSocket handler:
either registration succeeded (with the initial `output` frame payload, if
pane capture returned content), or `TmuxPtySession.spawn` raised because the
tmux session does not exist. -/
inductive RegisterResult where
  | ok (firstFrame : Option String)
  | sessionNotFound (message : String)
  deriving DecidableEq, Repr

/-- `SessionManager.register_client` over a manager map from session name to
registered client ids. A missing tmux session makes `spawn` raise before the
fork and before the map insertion; the code consults neither the declared
store nor the disk, and the world is returned unchanged. -/
def registerClient (w : TmuxWorld) (mgr : List (String × List Nat))
    (name : String) (client : Nat) :
    TmuxWorld × List (String × List Nat) × RegisterResult :=
  match assocGet mgr name with
  | some clients =>
    let clients2 := if clients.contains client then clients else clients ++ [client]
    (w, assocSet mgr name clients2, RegisterResult.ok (assocGet w.paneContent name))
  | none =>
    if w.sessions.contains name then
      (w, assocSet mgr name [client], RegisterResult.ok (assocGet w.paneContent name))
    else
      (w, mgr, RegisterResult.sessionNotFound ("Session '" ++ name ++ "' not found"))

/-- Events touching the manager's session map. -/
inductive PoolOp where
  | register (name : String) (client : Nat)
  | unregister (name : String) (client : Nat)
  | broadcastDropFailed (name : String) (failed : List Nat)
  deriving DecidableEq, Repr

/-- Manager-level state: the session map, the names whose PTY has been
closed by unregistration, and the live tmux sessions (to record that no
manager operation kills one). -/
structure PoolState where
  sessions : List (String × List Nat)
  closedPty : List String
  tmux : List String
  deriving DecidableEq, Repr

/-- `register_client` / `unregister_client` / the failed-send removal at the
end of one `_broadcast_loop` iteration, as steps on the manager state. -/
def poolStep (s : PoolState) : PoolOp → PoolState
  | PoolOp.register name client =>
    match assocGet s.sessions name with
    | some cs =>
      let cs2 := if cs.contains client then cs else cs ++ [client]
      { s with sessions := assocSet s.sessions name cs2 }
    | none =>
      if s.tmux.contains name then
        { s with sessions := assocSet s.sessions name [client] }
      else s
  | PoolOp.unregister name client =>
    match assocGet s.sessions name with
    | none => s
    | some cs =>
      let cs2 := cs.erase client
      if cs2.isEmpty then
        { s with sessions := assocRemove s.sessions name,
                 closedPty := s.closedPty ++ [name] }
      else { s with sessions := assocSet s.sessions name cs2 }
  | PoolOp.broadcastDropFailed name failed =>
    match assocGet s.sessions name with
    | none => s
    | some cs =>
      { s with sessions := assocSet s.sessions name (cs.filter fun c => !failed.contains c) }

/-- Run a sequence of manager events. -/
def runPool (s : PoolState) (ops : List PoolOp) : PoolState :=
  ops.foldl poolStep s

/-! ## tmux_pty.py: close -/

/-- The fields of `TmuxPtySession` that `close` touches. -/
structure PtyState where
  masterFd : Option Nat
  pid : Option Nat
  cols : Nat
  rows : Nat
  deriving DecidableEq, Repr

/-- OS calls issued by `close` (failures of both are swallowed by the code). -/
inductive OsAction where
  | closeFd (fd : Nat)
  | killAndReap (pid : Nat)
  deriving DecidableEq, Repr

/-- `TmuxPtySession.close`. -/
def closePty (s : PtyState) : PtyState × List OsAction :=
  let fdActs : List OsAction :=
    match s.masterFd with
    | some fd => [OsAction.closeFd fd]
    | none => []
  let pidActs : List OsAction :=
    match s.pid with
    | some p => [OsAction.killAndReap p]
    | none => []
  ({ s with masterFd := none, pid := none }, fdActs ++ pidActs)

/-! ## Concrete example inputs -/

/-- A streaming trace whose output matches a WORKING pattern at t = 0 ms,
t = 600 ms (committing WORKING) and t = 700 000 ms, with nothing but
working output in between: the session is WORKING continuously for 700 s. -/
def c1Trace : List (List Char × Nat) :=
  [("Thinking...".toList, 0), ("Thinking...".toList, 600),
   ("Thinking...".toList, 700000)]

/-- A world in which the tmux session `demo` is gone but the declared store
records workdir `/tmp/proj`, which exists on disk. -/
def c2World : TmuxWorld :=
  { sessions := [], declared := [("demo", "/tmp/proj")],
    dirs := ["/tmp/proj"], paneContent := [] }

/-- A detector that has had WORKING pending since t = 0 ms. -/
def c3Pending : DetectorState :=
  { buffer := [], current := SessionState.unknown,
    pending := some SessionState.working, pendingTime := 0 }

/-- A repository whose working tree holds exactly one untracked file
`new.txt` with content `"a\nb\n"` (HEAD exists and matches the index). -/
def c5Repo : RepoState :=
  { workdir := "/repo", headValid := true, headDiffText := "",
    headContents := [], untrackedFiles := ["new.txt"],
    fsFiles := [("/repo/new.txt", "a\nb\n")] }

/-- The diff snapshot `get_full_diff_with_untracked` must produce for
`c5Repo`. -/
def c5Expected : DiffSnapshot :=
  { files := [{ path := "new.txt",
                diff := String.intercalate "\n"
                  ["diff --git a/new.txt b/new.txt", "new file mode 100644",
                   "--- /dev/null", "+++ b/new.txt", "@@ -0,0 +1,3 @@",
                   "+a", "+b", "+"],
                oldContent := none, newContent := some "a\nb\n" }],
    stats := { additions := 3, deletions := 0 } }

/-- An empty diff cache with one stale interest entry. -/
def c6Cache : DiffCacheState := { cache := [], lastInterest := [("x", 5)] }

/-- A pool whose only tmux session is `s1` and which has no clients yet. -/
def c8Init : PoolState := { sessions := [], closedPty := [], tmux := ["s1"] }

/-- Every managed entry of the session map has a non-empty client set. -/
def goodPool (s : PoolState) : Prop :=
  ∀ p ∈ s.sessions, p.2 ≠ []

/-! ## Helper lemmas -/

theorem assocGet_assocSet_self {α : Type} [DecidableEq α] {β : Type}
    (l : List (α × β)) (k : α) (v : β) : assocGet (assocSet l k v) k = some v := by
  induction l with
  | nil => simp [assocSet, assocGet]
  | cons p rest ih =>
    obtain ⟨a, b⟩ := p
    by_cases h : a = k
    · simp [assocSet, assocGet, h]
    · simp [assocSet, assocGet, h, ih]

theorem assocGet_assocSet_ne {α : Type} [DecidableEq α] {β : Type}
    (l : List (α × β)) (k k2 : α) (v : β) (h : k2 ≠ k) :
    assocGet (assocSet l k v) k2 = assocGet l k2 := by
  induction l with
  | nil =>
    have hne : ¬ k = k2 := fun hh => h hh.symm
    simp [assocSet, assocGet, hne]
  | cons p rest ih =>
    obtain ⟨a, b⟩ := p
    by_cases ha : a = k
    · subst ha
      have hne : ¬ a = k2 := fun hh => h hh.symm
      simp [assocSet, assocGet, hne]
    · simp [assocSet, assocGet, ha, ih]

theorem mem_assocSet {α : Type} [DecidableEq α] {β : Type}
    (l : List (α × β)) (k : α) (v : β) (p : α × β) (hp : p ∈ assocSet l k v) :
    p = (k, v) ∨ p ∈ l := by
  induction l with
  | nil =>
    simp only [assocSet, List.mem_singleton] at hp
    exact Or.inl hp
  | cons q rest ih =>
    obtain ⟨a, b⟩ := q
    by_cases ha : a = k
    · subst ha
      have hp2 : p ∈ (a, v) :: rest := by simpa [assocSet] using hp
      rcases List.mem_cons.mp hp2 with hh | hh
      · exact Or.inl hh
      · exact Or.inr (List.mem_cons_of_mem _ hh)
    · have hp2 : p ∈ (a, b) :: assocSet rest k v := by simpa [assocSet, ha] using hp
      rcases List.mem_cons.mp hp2 with hh | hh
      · exact Or.inr (by simp [hh])
      · rcases ih hh with h2 | h2
        · exact Or.inl h2
        · exact Or.inr (List.mem_cons_of_mem _ h2)

theorem mem_assocRemove {α : Type} [DecidableEq α] {β : Type}
    (l : List (α × β)) (k : α) (p : α × β) (hp : p ∈ assocRemove l k) : p ∈ l := by
  induction l with
  | nil => simp [assocRemove] at hp
  | cons q rest ih =>
    obtain ⟨a, b⟩ := q
    by_cases ha : a = k
    · simp only [assocRemove, if_pos ha] at hp
      exact List.mem_cons_of_mem _ hp
    · simp only [assocRemove, if_neg ha, List.mem_cons] at hp
      rcases hp with h | h
      · simp [h]
      · exact List.mem_cons_of_mem _ (ih h)

theorem assocGet_eq_none_of_not_mem {α : Type} [DecidableEq α] {β : Type}
    (l : List (α × β)) (k : α) (h : k ∉ l.map Prod.fst) : assocGet l k = none := by
  induction l with
  | nil => rfl
  | cons q rest ih =>
    obtain ⟨a, b⟩ := q
    simp only [List.map_cons, List.mem_cons] at h
    push_neg at h
    have hne : ¬ a = k := fun hh => h.1 hh.symm
    simp [assocGet, hne, ih h.2]

theorem assocGet_assocRemove_self {α : Type} [DecidableEq α] {β : Type}
    (l : List (α × β)) (k : α) (hnd : (l.map Prod.fst).Nodup) :
    assocGet (assocRemove l k) k = none := by
  induction l with
  | nil => simp [assocRemove, assocGet]
  | cons q rest ih =>
    obtain ⟨a, b⟩ := q
    simp only [List.map_cons, List.nodup_cons] at hnd
    by_cases ha : a = k
    · subst ha
      simp only [assocRemove, if_pos rfl]
      exact assocGet_eq_none_of_not_mem rest a hnd.1
    · simp only [assocRemove, if_neg ha, assocGet, if_neg ha]
      exact ih hnd.2

theorem hasWorkOrIdleLoop_eq_any (l : List (List Char)) :
    hasWorkOrIdleLoop l =
      l.any fun line => hasSpinnerChar line || workingPatternMatch line || idlePatternMatch line := by
  induction l with
  | nil => rfl
  | cons line rest ih =>
    simp only [hasWorkOrIdleLoop, List.any_cons, ih]
    by_cases h1 : hasSpinnerChar line = true <;>
      by_cases h2 : workingPatternMatch line = true <;>
      by_cases h3 : idlePatternMatch line = true <;>
      simp [h1, h2, h3]

theorem anyLineMatch_eq_any (f : List Char → Bool) (l : List (List Char)) :
    anyLineMatch f l = l.any f := by
  induction l with
  | nil => rfl
  | cons line rest ih =>
    simp only [anyLineMatch, List.any_cons, ih]
    by_cases h : f line = true <;> simp [h]

theorem mem_bufferAppend (buf : List (List Char)) (line x : List Char)
    (hx : x ∈ bufferAppend buf line) : x ∈ buf ∨ x = line := by
  have h1 : x ∈ buf ++ [line] := List.mem_of_mem_drop hx
  rcases List.mem_append.mp h1 with h | h
  · exact Or.inl h
  · exact Or.inr (by simpa using h)

theorem mem_addLines (lines : List (List Char)) (buf : List (List Char))
    (x : List Char) (hx : x ∈ addLines buf lines) :
    x ∈ buf ∨ (x ≠ [] ∧ ∃ raw ∈ lines, x = stripAnsi raw) := by
  induction lines generalizing buf with
  | nil => exact Or.inl (by simpa [addLines] using hx)
  | cons l rest ih =>
    have hx2 : x ∈ addLines
        (if (stripAnsi l).isEmpty then buf else bufferAppend buf (stripAnsi l)) rest := by
      simpa [addLines] using hx
    rcases ih _ hx2 with h | h
    · by_cases he : (stripAnsi l).isEmpty
      · exact Or.inl (by simpa [he] using h)
      · rw [if_neg he] at h
        rcases mem_bufferAppend _ _ _ h with h2 | h2
        · exact Or.inl h2
        · refine Or.inr ⟨?_, l, by simp, h2⟩
          intro hnil
          rw [hnil] at h2
          exact he (by simp [← h2])
    · exact Or.inr ⟨h.1, h.2.choose, List.mem_cons_of_mem _ h.2.choose_spec.1, h.2.choose_spec.2⟩

theorem analyzeState_ne_stalled (buf : List (List Char)) :
    analyzeState buf ≠ SessionState.stalled := by
  simp only [analyzeState]
  split_ifs <;> simp

theorem mem_of_assocGet_eq_some {α : Type} [DecidableEq α] {β : Type}
    (l : List (α × β)) (k : α) (v : β) (h : assocGet l k = some v) : (k, v) ∈ l := by
  induction l with
  | nil => simp [assocGet] at h
  | cons q rest ih =>
    obtain ⟨a, b⟩ := q
    by_cases ha : a = k
    · subst ha
      have hb : b = v := by simpa [assocGet] using h
      simp [hb]
    · simp only [assocGet, if_neg ha] at h
      exact List.mem_cons_of_mem _ (ih h)

/-! ## Claims -/

/-- C3: every state transition committed by the streaming engine
(`process_output`) requires the newly detected state to have been pending
for at least 500 ms: a detection equal to the committed state clears the
pending state; a detection differing from the pending state re-arms pending
with the current timestamp; and a commit `current ← detected` happens only
from a matching pending entry at least `STATE_CHANGE_DELAY_MS` old. -/
theorem processOutput_commit_requires_stable_500ms
    (s : DetectorState) (data : List Char) (now : Nat) :
    ((processOutput s data now).1.current ≠ s.current →
      s.pending = some (analyzeState (addLines s.buffer (splitLines data))) ∧
      stateChangeDelayMs ≤ now - s.pendingTime ∧
      (processOutput s data now).1.current =
        analyzeState (addLines s.buffer (splitLines data)) ∧
      (processOutput s data now).1.pending = none) ∧
    (analyzeState (addLines s.buffer (splitLines data)) = s.current →
      (processOutput s data now).1.pending = none ∧
      (processOutput s data now).1.current = s.current) ∧
    (analyzeState (addLines s.buffer (splitLines data)) ≠ s.current →
      s.pending ≠ some (analyzeState (addLines s.buffer (splitLines data))) →
      (processOutput s data now).1.pending =
        some (analyzeState (addLines s.buffer (splitLines data))) ∧
      (processOutput s data now).1.pendingTime = now ∧
      (processOutput s data now).1.current = s.current) := by
  simp only [processOutput]
  split_ifs with h1 h2 h3 <;> refine ⟨?_, ?_, ?_⟩ <;> intro hh <;> simp_all

/-- C3 witness: a detector with WORKING pending since t = 0 commits WORKING
on a working chunk at t = 500 ms. -/
theorem processOutput_commit_requires_stable_500ms_witness :
    c3Pending.pending =
      some (analyzeState (addLines c3Pending.buffer (splitLines "Thinking".toList))) ∧
    stateChangeDelayMs ≤ 500 - c3Pending.pendingTime ∧
    (processOutput c3Pending "Thinking".toList 500).1.current =
      analyzeState (addLines c3Pending.buffer (splitLines "Thinking".toList)) ∧
    (processOutput c3Pending "Thinking".toList 500).1.pending = none :=
  (processOutput_commit_requires_stable_500ms c3Pending "Thinking".toList 500).1 (by decide)

/-- C4: `_analyze_state` equals the specified priority cascade over the
last 10 buffered lines (error anywhere, else shell-prompt-as-error only
when no working/idle signal is in the window, else spinner on the last
line, else working, else idle, else unknown), and the buffer only ever
receives non-empty ANSI-stripped lines. -/
theorem analyze_state_priority_spec :
    (∀ buf, analyzeState buf = specAnalyzeState buf) ∧
    (∀ buf data x, x ∈ addLines buf (splitLines data) →
      x ∈ buf ∨ (x ≠ [] ∧ ∃ raw ∈ splitLines data, x = stripAnsi raw)) := by
  constructor
  · intro buf
    simp only [analyzeState, specAnalyzeState, hasWorkOrIdleLoop_eq_any, anyLineMatch_eq_any]
  · intro buf data x hx
    exact mem_addLines _ _ _ hx

/-- C4 witness: the cascade agreement and the buffer property at a
one-character chunk. -/
theorem analyze_state_priority_spec_witness :
    analyzeState [['a']] = specAnalyzeState [['a']] ∧
    (['a'] ∈ ([] : List (List Char)) ∨
      (['a'] ≠ [] ∧ ∃ raw ∈ splitLines ['a'], ['a'] = stripAnsi raw)) :=
  ⟨analyze_state_priority_spec.1 [['a']],
   analyze_state_priority_spec.2 [] ['a'] ['a'] (by decide)⟩

/-- C9: `TmuxPtySession.close` is idempotent: after one call both
`master_fd` and `pid` are `None`, and a second call performs no OS action
and leaves the state unchanged. -/
theorem close_pty_idempotent (s : PtyState) :
    (closePty s).1.masterFd = none ∧ (closePty s).1.pid = none ∧
    closePty (closePty s).1 = ((closePty s).1, []) ∧
    (closePty (closePty s).1).1 = (closePty s).1 := by
  cases s with
  | mk fd pid cols rows => cases fd <;> cases pid <;> simp [closePty]

/-- C1 counterexample: on the streaming path (`process_output`) a session
that has been detected WORKING continuously since t = 0 (committed at
t = 600 ms) still reports `working`, not `stalled`, at t = 700 000 ms —
700 s, past the 600 s threshold the claim requires. `process_output` has no
stall logic at all. -/
theorem streaming_path_reports_working_after_600s :
    (runDetector initDetector (c1Trace.take 2)).1.current = SessionState.working ∧
    (runDetector initDetector c1Trace).2 = SessionState.working ∧
    (runDetector initDetector c1Trace).1.current = SessionState.working ∧
    stallThresholdMs ≤ 700000 - 600 := by decide

/-- C1 (amended): the stall overlay lives only on the snapshot path
(`IdleMonitor._check_session`): a WORKING analysis is reported `stalled`
exactly when strictly more than 600 s have elapsed since `_working_since`
was recorded; the entry is created at the first WORKING observation and
dropped on any non-WORKING one; and the streaming path (`process_output`)
never reports `stalled`. -/
theorem stall_overlay_snapshot_path_only :
    (∀ t0 now, now - t0 > stallThresholdMs →
      monitorStallStep (some t0) SessionState.working now = (some t0, SessionState.stalled)) ∧
    (∀ t0 now, now - t0 ≤ stallThresholdMs →
      monitorStallStep (some t0) SessionState.working now = (some t0, SessionState.working)) ∧
    (∀ now, monitorStallStep none SessionState.working now = (some now, SessionState.working)) ∧
    (∀ since st now, st ≠ SessionState.working → monitorStallStep since st now = (none, st)) ∧
    (∀ s data now, s.current ≠ SessionState.stalled →
      (processOutput s data now).2 ≠ SessionState.stalled ∧
      (processOutput s data now).1.current ≠ SessionState.stalled) := by
  refine ⟨?_, ?_, ?_, ?_, ?_⟩
  · intro t0 now h
    simp [monitorStallStep, h]
  · intro t0 now h
    simp [monitorStallStep, Nat.not_lt.mpr h]
  · intro now
    simp [monitorStallStep]
  · intro since st now h
    simp [monitorStallStep, h]
  · intro s data now h
    simp only [processOutput]
    split_ifs <;> exact ⟨by simp_all [analyzeState_ne_stalled],
      by simp_all [analyzeState_ne_stalled]⟩

/-- C1 amendment witness: concrete stall, non-stall, start, reset, and
streaming cases. -/
theorem stall_overlay_snapshot_path_only_witness :
    monitorStallStep (some 0) SessionState.working 600001 = (some 0, SessionState.stalled) ∧
    monitorStallStep (some 0) SessionState.working 600000 = (some 0, SessionState.working) ∧
    monitorStallStep none SessionState.idle 7 = (none, SessionState.idle) ∧
    ((processOutput initDetector "x".toList 0).2 ≠ SessionState.stalled ∧
      (processOutput initDetector "x".toList 0).1.current ≠ SessionState.stalled) :=
  ⟨stall_overlay_snapshot_path_only.1 0 600001 (by decide),
   stall_overlay_snapshot_path_only.2.1 0 600000 (by decide),
   stall_overlay_snapshot_path_only.2.2.2.1 none SessionState.idle 7 (by decide),
   stall_overlay_snapshot_path_only.2.2.2.2 initDetector "x".toList 0 (by decide)⟩

/-- C2 counterexample: with the tmux session `demo` dead, the declared
store recording workdir `/tmp/proj`, and that directory present on disk,
`register_client` returns the spawn failure, creates no managed entry, and
leaves the world untouched — in particular no tmux session is recreated and
no `output` frame is produced. -/
theorem register_client_no_recreation :
    registerClient c2World [] "demo" 1 =
      (c2World, [], RegisterResult.sessionNotFound "Session 'demo' not found") ∧
    assocGet c2World.declared "demo" = some "/tmp/proj" ∧
    c2World.dirs.contains "/tmp/proj" = true ∧
    (registerClient c2World [] "demo" 1).1.sessions = [] := by decide

/-- C2 (amended): registering a client for a session name with no managed
entry and no live tmux session fails with the spawn error (`Session '<name>'
not found`): no managed entry is created, no PTY is opened (spawn verifies
existence before forking), the declared store and the disk are not
consulted, and the tmux session is not recreated. -/
theorem register_missing_session_fails_cleanly
    (w : TmuxWorld) (mgr : List (String × List Nat)) (name : String) (client : Nat)
    (hmgr : assocGet mgr name = none) (hlive : w.sessions.contains name = false) :
    registerClient w mgr name client =
      (w, mgr, RegisterResult.sessionNotFound ("Session '" ++ name ++ "' not found")) := by
  have hmem : name ∉ w.sessions := by simpa using hlive
  simp [registerClient, hmgr, hmem]

/-- C2 amendment witness. -/
theorem register_missing_session_fails_cleanly_witness :
    registerClient c2World [("other", [3])] "demo" 1 =
      (c2World, [("other", [3])],
        RegisterResult.sessionNotFound ("Session '" ++ "demo" ++ "' not found")) :=
  register_missing_session_fails_cleanly c2World [("other", [3])] "demo" 1
    (by decide) (by decide)

/-- C5: on a repository whose only change is the untracked file `new.txt`
with content `"a\nb\n"`, `get_full_diff_with_untracked` returns exactly one
entry with path `new.txt`, no old content, new content `"a\nb\n"`, the
synthesized unified diff headed by `diff --git a/new.txt b/new.txt`,
`new file mode 100644`, `--- /dev/null`, `+++ b/new.txt`,
`@@ -0,0 +1,3 @@` followed by `+a`, `+b`, `+`, and stats
`{additions: 3, deletions: 0}` — with HEAD either valid or absent. -/
theorem untracked_pseudo_diff_single_file :
    getFullDiffWithUntracked c5Repo = c5Expected ∧
    getFullDiffWithUntracked { c5Repo with headValid := false } = c5Expected ∧
    ((getFullDiffWithUntracked c5Repo).files.map fun f => strSplitOn f.diff "\n") =
      [["diff --git a/new.txt b/new.txt", "new file mode 100644",
        "--- /dev/null", "+++ b/new.txt", "@@ -0,0 +1,3 @@",
        "+a", "+b", "+"]] := by decide

/-- C6: the diff-stats endpoint leaves the diff cache state — in particular
every session's `lastInterest` entry — unchanged, while the full-diff
endpoint sets `lastInterest[name]` to the current time and leaves every
other session's entry unchanged. -/
theorem diff_interest_endpoints_asymmetry (s : DiffCacheState) (name other : String)
    (now : Nat) (repo : Option RepoState) :
    (sessionGitDiffStatsEndpoint s name).1 = s ∧
    assocGet (sessionGitDiffEndpoint s name now repo).1.lastInterest name = some now ∧
    (other ≠ name →
      assocGet (sessionGitDiffEndpoint s name now repo).1.lastInterest other =
        assocGet s.lastInterest other) := by
  have h1 : (sessionGitDiffEndpoint s name now repo).1 = markActive s name now := by
    simp only [sessionGitDiffEndpoint]
    cases cacheGetDiff (markActive s name now) name with
    | some d => rfl
    | none => cases repo <;> rfl
  refine ⟨?_, ?_, ?_⟩
  · unfold sessionGitDiffStatsEndpoint
    cases cacheGetStats s name <;> rfl
  · rw [h1]
    simp [markActive, assocGet_assocSet_self]
  · intro hother
    rw [h1]
    simp only [markActive]
    exact assocGet_assocSet_ne _ _ _ _ hother

/-- C6 witness: stats call on an empty cache changes nothing; a full-diff
call stamps `lastInterest` for `a` and not for `b`. -/
theorem diff_interest_endpoints_asymmetry_witness :
    (sessionGitDiffStatsEndpoint c6Cache "a").1 = c6Cache ∧
    assocGet (sessionGitDiffEndpoint c6Cache "a" 42 none).1.lastInterest "a" = some 42 ∧
    assocGet (sessionGitDiffEndpoint c6Cache "a" 42 none).1.lastInterest "b" =
      assocGet c6Cache.lastInterest "b" :=
  ⟨(diff_interest_endpoints_asymmetry c6Cache "a" "b" 42 none).1,
   (diff_interest_endpoints_asymmetry c6Cache "a" "b" 42 none).2.1,
   (diff_interest_endpoints_asymmetry c6Cache "a" "b" 42 none).2.2 (by decide)⟩

/-- C7: a readFile request whose requested path, resolved against the
session root, does not lie within the resolved root is rejected with the
access-denied error and opens no file; and every file the handler does open
lies within the resolved root. -/
theorem read_file_rejects_path_escape (files : List (List String × String))
    (dirs : List (List String)) (workdir relPath : List String) :
    (validatePathWithinRoot (workdir ++ relPath) workdir = false →
      sessionGetFileEndpoint files dirs workdir relPath =
        (FileResponse.httpError 403 "Access denied", [])) ∧
    (∀ p ∈ (sessionGetFileEndpoint files dirs workdir relPath).2,
      (resolvePath workdir).isPrefixOf p = true) := by
  constructor
  · intro h
    unfold sessionGetFileEndpoint
    simp [h]
  · intro p hp
    simp only [sessionGetFileEndpoint] at hp
    by_cases hv : validatePathWithinRoot (workdir ++ relPath) workdir
    · rw [hv] at hp
      simp only [Bool.not_true, Bool.false_eq_true, if_false] at hp
      cases hg : assocGet files (resolvePath (workdir ++ relPath)) with
      | some content =>
        rw [hg] at hp
        simp only [List.mem_singleton] at hp
        subst hp
        exact hv
      | none =>
        rw [hg] at hp
        split_ifs at hp <;> simp at hp
    · rw [Bool.not_eq_true] at hv
      rw [hv] at hp
      simp at hp

/-- C7 witness: the traversal request `../../secret` against root
`/home/u/proj` is rejected with no file opened. -/
theorem read_file_rejects_path_escape_witness :
    sessionGetFileEndpoint [] [] ["home", "u", "proj"] ["..", "..", "secret"] =
      (FileResponse.httpError 403 "Access denied", []) :=
  (read_file_rejects_path_escape [] [] ["home", "u", "proj"] ["..", "..", "secret"]).1
    (by decide)

/-- C8 counterexample: after a client registers for `s1` and its send fails
inside the broadcast loop, the loop discards the client but leaves the
managed entry in the map with an empty client set — refuting the claim that
no execution leaves such an entry. -/
theorem broadcast_drop_leaves_empty_client_set :
    assocGet (runPool c8Init
      [PoolOp.register "s1" 1, PoolOp.broadcastDropFailed "s1" [1]]).sessions "s1" =
      some [] := by decide

/-- C8 (amended): the register and unregister operations preserve the
invariant that every managed entry has a non-empty client set (the
broadcast loop's failed-send removal may break it until the affected
clients unregister); unregistering the last client removes the entry and
closes the session's PTY; and no manager operation — including the
broadcast-loop removal — touches the live tmux sessions. -/
theorem client_set_invariant_amended :
    (∀ s name client, goodPool s → goodPool (poolStep s (PoolOp.register name client))) ∧
    (∀ s name client, goodPool s → goodPool (poolStep s (PoolOp.unregister name client))) ∧
    (∀ s name client, (s.sessions.map Prod.fst).Nodup →
      assocGet s.sessions name = some [client] →
      assocGet (poolStep s (PoolOp.unregister name client)).sessions name = none ∧
      (poolStep s (PoolOp.unregister name client)).closedPty = s.closedPty ++ [name]) ∧
    (∀ s op, (poolStep s op).tmux = s.tmux) := by
  refine ⟨?_, ?_, ?_, ?_⟩
  · intro s name client hg p hp
    simp only [poolStep] at hp
    cases hget : assocGet s.sessions name with
    | some cs =>
      rw [hget] at hp
      have hcs : cs ≠ [] := hg _ (mem_of_assocGet_eq_some _ _ _ hget)
      simp only at hp
      rcases mem_assocSet _ _ _ _ hp with hh | hh
      · subst hh
        by_cases hc : client ∈ cs
        · simp [hc, hcs]
        · simp [hc]
      · exact hg _ hh
    | none =>
      rw [hget] at hp
      by_cases ht : s.tmux.contains name
      · rw [if_pos ht] at hp
        simp only at hp
        rcases mem_assocSet _ _ _ _ hp with hh | hh
        · subst hh
          simp
        · exact hg _ hh
      · rw [if_neg ht] at hp
        exact hg _ hp
  · intro s name client hg p hp
    simp only [poolStep] at hp
    cases hget : assocGet s.sessions name with
    | some cs =>
      rw [hget] at hp
      simp only at hp
      by_cases he : (cs.erase client).isEmpty
      · rw [if_pos he] at hp
        simp only at hp
        exact hg _ (mem_assocRemove _ _ _ hp)
      · rw [if_neg he] at hp
        simp only at hp
        rcases mem_assocSet _ _ _ _ hp with hh | hh
        · subst hh
          simpa [List.isEmpty_iff] using he
        · exact hg _ hh
    | none =>
      rw [hget] at hp
      exact hg _ hp
  · intro s name client hnd hget
    simp only [poolStep, hget, List.erase_cons_head, List.isEmpty_nil, if_true]
    exact ⟨assocGet_assocRemove_self _ _ hnd, trivial⟩
  · intro s op
    cases op <;> simp only [poolStep] <;> split <;>
      first
      | rfl
      | (split_ifs <;> rfl)

/-- C8 amendment witness: concrete register, unregister-last-client and
broadcast-drop steps. -/
theorem client_set_invariant_amended_witness :
    goodPool (poolStep ⟨[("s1", [7])], [], ["s1"]⟩ (PoolOp.register "s1" 8)) ∧
    goodPool (poolStep ⟨[("s1", [7, 8])], [], ["s1"]⟩ (PoolOp.unregister "s1" 8)) ∧
    (assocGet (poolStep ⟨[("s1", [7])], [], ["s1"]⟩
        (PoolOp.unregister "s1" 7)).sessions "s1" = none ∧
      (poolStep ⟨[("s1", [7])], [], ["s1"]⟩ (PoolOp.unregister "s1" 7)).closedPty =
        [] ++ ["s1"]) ∧
    (poolStep ⟨[("s1", [7])], [], ["s1"]⟩ (PoolOp.broadcastDropFailed "s1" [7])).tmux =
      ["s1"] :=
  ⟨client_set_invariant_amended.1 ⟨[("s1", [7])], [], ["s1"]⟩ "s1" 8
     (by unfold goodPool; decide),
   client_set_invariant_amended.2.1 ⟨[("s1", [7, 8])], [], ["s1"]⟩ "s1" 8
     (by unfold goodPool; decide),
   client_set_invariant_amended.2.2.1 ⟨[("s1", [7])], [], ["s1"]⟩ "s1" 7
     (by decide) (by decide),
   client_set_invariant_amended.2.2.2 ⟨[("s1", [7])], [], ["s1"]⟩
     (PoolOp.broadcastDropFailed "s1" [7])⟩

/-- C10: when the diff cache holds no entry for a session, the diff-stats
endpoint answers `{files: 0, additions: 0, deletions: 0}` — byte-identical
to its answer for a cached clean working tree — leaving the cache state
untouched and performing no git computation. -/
theorem diff_stats_miss_returns_zeros (s : DiffCacheState) (name : String)
    (h : assocGet s.cache name = none) :
    (sessionGitDiffStatsEndpoint s name).2.1 = ⟨0, 0, 0⟩ ∧
    (sessionGitDiffStatsEndpoint s name).1 = s ∧
    (sessionGitDiffStatsEndpoint s name).2.2 = [] ∧
    (sessionGitDiffStatsEndpoint s name).2.1 =
      (sessionGitDiffStatsEndpoint
        { cache := assocSet s.cache name cleanDiffSnapshot,
          lastInterest := s.lastInterest } name).2.1 := by
  have hs : cacheGetStats s name = none := by simp [cacheGetStats, h]
  have hs2 : cacheGetStats
      { cache := assocSet s.cache name cleanDiffSnapshot,
        lastInterest := s.lastInterest } name = some ⟨0, 0, 0⟩ := by
    simp [cacheGetStats, assocGet_assocSet_self, cleanDiffSnapshot]
  unfold sessionGitDiffStatsEndpoint
  rw [hs, hs2]
  simp

/-- C10 witness: a stats request for an uncached session against an empty
cache. -/
theorem diff_stats_miss_returns_zeros_witness :
    (sessionGitDiffStatsEndpoint c6Cache "demo").2.1 = ⟨0, 0, 0⟩ ∧
    (sessionGitDiffStatsEndpoint c6Cache "demo").1 = c6Cache ∧
    (sessionGitDiffStatsEndpoint c6Cache "demo").2.2 = [] ∧
    (sessionGitDiffStatsEndpoint c6Cache "demo").2.1 =
      (sessionGitDiffStatsEndpoint
        { cache := assocSet c6Cache.cache "demo" cleanDiffSnapshot,
          lastInterest := c6Cache.lastInterest } "demo").2.1 :=
  diff_stats_miss_returns_zeros c6Cache "demo" (by decide)

end Lumbergh
